import Mathlib

/-!
Shallow embedding of the kusanagi episodic learner and PDDP trajectory
optimizer, together with theorems settling the specification claims.

Source files embedded:
* `ghost/learners/EpisodicLearner.py` — optimizer fallback dispatch,
  resume-from-iteration truncation, the rollout loop of `apply_controller`,
  and the `save`/`train_policy` bookkeeping of `policy_history`.
* `kusanagi/ghost/algorithms/PDDP/pddp.py` — `propagate_state`,
  `backward_pass` (direct and Lop branches).

Numeric arrays are modelled over `ℚ` with Mathlib matrices; the external
numerical solver (`tt.slinalg.solve`), the dynamics model
(`predict_symbolic`), the policy and the cost evaluator are abstract
function parameters, exactly as they are black boxes to the embedded code.
-/

open scoped Matrix

namespace Kusanagi

/-! ### EpisodicLearner.train_policy: deterministic-method fallback (C1)

`DETERMINISTIC_MIN_METHODS = ['L-BFGS-B', 'TNC', 'BFGS', 'SLSQP', 'CG']`.
The method names form a closed set, modelled as an inductive type. -/

inductive DetMethod where
  | lbfgsb
  | tnc
  | bfgs
  | slsqp
  | cg
deriving DecidableEq, Repr

/-- The list `DETERMINISTIC_MIN_METHODS` from `EpisodicLearner.py` line 17. -/
def DETERMINISTIC_MIN_METHODS : List DetMethod :=
  [.lbfgsb, .tnc, .bfgs, .slsqp, .cg]

/-- Outcome of one `scipy.optimize.minimize` call (a black box to the
learner): it returns optimized parameters, raises `ValueError`
(the numerical failure the learner catches), or raises some other
exception (which the `except ValueError` clause does not catch). -/
inductive MethodOutcome (P : Type) where
  | success (res : P)
  | valueError
  | otherError
deriving DecidableEq

/-- Result of the deterministic training branch: either the loop finishes
(with the parameters installed on the policy, and the method that
succeeded, if any) or a non-`ValueError` exception propagates. -/
inductive DetTrainResult (P : Type) where
  | finished (installed : P) (succeeded : Option DetMethod)
  | fatal (m : DetMethod)
deriving DecidableEq

/-- From `EpisodicLearner.train_policy` lines 266-269: build the fallback list,
the configured method first, then every deterministic method not already
in the list, in the fixed order. -/
def build_min_methods (m : DetMethod) : List DetMethod :=
  DETERMINISTIC_MIN_METHODS.foldl
    (fun acc d => if d ∈ acc then acc else acc ++ [d]) [m]

/-- From `EpisodicLearner.train_policy` lines 272-287: try each method in turn.
On success install the optimizer's result and stop.  On `ValueError`
restore the best-known parameters (`best`) and retry with the next method;
when the list is exhausted, the loop simply ends with the best-known
parameters installed — no exception is re-raised.  Any other exception
propagates.  (The running update of `best_p` inside `loss` is abstracted:
`best` stands for the best-known parameter snapshot.) -/
def try_min_methods {P : Type} (attempt : DetMethod → P → MethodOutcome P)
    (best : P) : P → List DetMethod → DetTrainResult P
  | p, [] => .finished p none
  | p, m :: rest =>
    match attempt m p with
    | .success r => .finished r (some m)
    | .valueError => try_min_methods attempt best best rest
    | .otherError => .fatal m

/-- The deterministic branch of `train_policy`: initial parameters `p0`,
best-known snapshot `best`, configured method `m`. -/
def train_policy_det {P : Type} (attempt : DetMethod → P → MethodOutcome P)
    (best p0 : P) (m : DetMethod) : DetTrainResult P :=
  try_min_methods attempt best p0 (build_min_methods m)

/-! ### Learner bookkeeping state (C7)

The fields of `EpisodicLearner` (and the `policy_history` list of its
`ExperienceDataset`) that `train_policy`, `save` and `apply_controller`
read or write.  P is the type of a policy-parameter snapshot. -/

structure LearnerModel (P : Type) where
  learning_iteration : ℕ
  n_evals : ℕ
  n_episodes : ℕ
  params : P
  policy_history : List P
  state_changed : Bool
deriving DecidableEq

/-- From `EpisodicLearner.save` lines 106-120: unconditionally appends the
current policy parameters to `policy_history`, persists, and clears the
dirty flag.  (File writes are side effects outside the model.) -/
def save {P : Type} (s : LearnerModel P) : LearnerModel P :=
  { s with policy_history := s.policy_history ++ [s.params]
           state_changed := false }

/-- The bookkeeping effect of `EpisodicLearner.train_policy` lines 250-251
and 321: increments the learning-iteration counter, resets the evaluation
counter, installs whatever parameters the optimization produced
(abstracted as `newParams`) and marks the state dirty. -/
def train_policy_effect {P : Type} (newParams : P) (s : LearnerModel P) :
    LearnerModel P :=
  { s with learning_iteration := s.learning_iteration + 1
           n_evals := 0
           params := newParams
           state_changed := true }

/-- The bookkeeping effect of `EpisodicLearner.apply_controller` line 243
on the learner state: increments the episode counter only; it never
touches `learning_iteration` or `policy_history`. -/
def apply_controller_effect {P : Type} (s : LearnerModel P) : LearnerModel P :=
  { s with n_episodes := s.n_episodes + 1 }

/-! ### Resume-from-iteration guard (C8) -/

/-- What the resume branch of `EpisodicLearner.__init__` (lines 66-87)
decides to do for a requested iteration. -/
inductive ResumeAction where
  | skip
  | promptContinueLatest
  | truncate
deriving DecidableEq, Repr

/-- From `EpisodicLearner.__init__` lines 67-72: if the experience has no
`policy_history` attribute, silently do nothing; if
`learn_from_iteration + 1 >= len(policy_history)`, print the warning and
block on `raw_input()` (operator confirmation), after which the learner
continues from the last loaded iteration without truncating; otherwise
proceed to truncate. -/
def resume_check (hasHistory : Bool) (historyLen k : ℕ) : ResumeAction :=
  if !hasHistory then .skip
  else if historyLen ≤ k + 1 then .promptContinueLatest
  else .truncate

/-! ### ExperienceDataset truncation (C3)

The `ExperienceDataset` class itself lives outside `src/`; the structure
below records exactly the fields that the resume branch of
`EpisodicLearner.__init__` (which is in `src/`) reads and writes.
T, S, A, C are the entry types of the four time-aligned arrays and P the
policy-parameter snapshot type. -/

structure ExperienceDataset (T S A C P : Type) where
  time_stamps : List T
  states : List S
  actions : List A
  immediate_cost : List C
  episode_labels : List ℕ
  policy_history : List P
  curr_episode : ℤ
deriving DecidableEq

/-- First while loop of the resume branch (lines 74-76):
`while episode_labels[entry_num] != k: entry_num += 1`.  Returns the
index of the first element equal to `k`; running past the end of the
list is an uncaught `IndexError`, modelled as `none`. -/
def findEqIdx (k : ℕ) : List ℕ → Option ℕ
  | [] => none
  | l :: ls => if l = k then some 0 else (findEqIdx k ls).map (· + 1)

/-- Second while loop of the resume branch (lines 77-78):
`while episode_labels[entry_num] == k: entry_num += 1`, started on the
suffix beginning at the first element equal to `k`.  Returns how many
elements were skipped; running past the end is an `IndexError` (`none`). -/
def skipEqCount (k : ℕ) : List ℕ → Option ℕ
  | [] => none
  | l :: ls => if l = k then (skipEqCount k ls).map (· + 1) else some 0

/-- The value of `entry_num` after both while loops: one past the first
contiguous block of samples labelled `k`. -/
def entry_num (labels : List ℕ) (k : ℕ) : Option ℕ :=
  match findEqIdx k labels with
  | none => none
  | some i => (skipEqCount k (labels.drop i)).map (i + ·)

/-- The truncation performed by `EpisodicLearner.__init__` lines 74-86
once the resume guard has passed: truncate the four time-aligned arrays
at `entry_num`, set `curr_episode`, and — only when the target iteration
is nonzero — restore the policy parameters from
`policy_history[k-1]` and truncate `policy_history` to `k` entries.
Returns the updated dataset and the installed policy parameters
(`pol` being the parameters currently on the policy); `none` models an
uncaught `IndexError` in either while loop or in the history lookup. -/
def resume_from_iteration {T S A C P : Type}
    (exp : ExperienceDataset T S A C P) (k : ℕ) (pol : P) :
    Option (ExperienceDataset T S A C P × P) :=
  match entry_num exp.episode_labels k with
  | none => none
  | some n =>
    let expT : ExperienceDataset T S A C P :=
      { exp with time_stamps := exp.time_stamps.take n
                 states := exp.states.take n
                 actions := exp.actions.take n
                 immediate_cost := exp.immediate_cost.take n
                 curr_episode := (n : ℤ) - 1 }
    if k ≠ 0 then
      match exp.policy_history.get? (k - 1) with
      | none => none
      | some p =>
        some ({ expT with policy_history := exp.policy_history.take k }, p)
    else
      some (expT, pol)

/-! ### EpisodicLearner.apply_controller rollout loop (C4, C9, C10)

S is the plant-state type, A the action type, V the noise-covariance
type.  The plant (`get_state`, `done`, timestamps), the policy (including
the `gTrig_np` angle preprocessing it is fed through), the Cholesky
factorization and the per-step noise draws are abstract parameters.
Modelled from the spec: `ExperienceDataset.add_sample`/`append` (the
class is not under `src/`) append one `(timestamp, state, action, cost)`
record to the experience. -/

/-- One recorded `(t, x, u, c)` sample. -/
structure RollSample (S A : Type) where
  t : ℚ
  x : S
  u : A
  c : ℚ
deriving DecidableEq

/-- The uncaught Python exceptions the embedded code paths can raise. -/
inductive PyError where
  | linAlgError
  | attributeError
deriving DecidableEq, Repr

/-- From `EpisodicLearner.init_cost` lines 143-150: the `evaluate_cost`
attribute is assigned (to the compiled evaluator) only when a cost
function was provided; otherwise the attribute is never created, so a
later read of `self.evaluate_cost` raises `AttributeError` (modelled as
`none`). -/
def init_cost {C F : Type} (cost : Option C) (compile : C → F) : Option F :=
  cost.map compile

/-- The `for i in xrange(H_steps)` loop of `apply_controller`
(lines 191-225): each iteration reads `self.evaluate_cost` (an
`AttributeError` if the attribute was never assigned), appends one sample
for the state fetched at index `i`, steps the plant, fetches the state at
index `i+1` and breaks if the plant reports completion.  Returns the
recorded samples and the index of the last fetched state.  The pacing
sleep is a real-time effect outside the model. -/
def rollout_loop {S A : Type} (evaluate_cost : Option (S → ℚ))
    (xs : ℕ → S) (tstamp : ℕ → ℚ) (done : ℕ → Bool) (policy : S → A) :
    ℕ → ℕ → Except PyError (List (RollSample S A) × ℕ)
  | i, 0 => .ok ([], i)
  | i, n + 1 =>
    match evaluate_cost with
    | none => .error .attributeError
    | some f =>
      let s : RollSample S A := ⟨tstamp i, xs i, policy (xs i), f (xs i)⟩
      if done (i + 1) then .ok ([s], i + 1)
      else
        match rollout_loop evaluate_cost xs tstamp done policy (i + 1) n with
        | .error e => .error e
        | .ok (l, j) => .ok (s :: l, j)

/-- From `EpisodicLearner.apply_controller` lines 179-234.  Faithful to the
source order: `np.linalg.cholesky(self.plant.noise)` is executed *before*
the `if self.plant.noise is not None` check, so a missing noise
covariance raises (modelled as `.error .linAlgError`) before any sample
is recorded.  When noise is present, every fetched state has a noise draw
added.  `H_steps = int(np.ceil(H / dt))`.  After the loop one terminal
sample is appended whose action is `np.zeros_like(u_t)` (`zeroU`; the
code would raise `NameError` here if the loop ran zero times, which no
claim exercises). -/
def apply_controller {S A V : Type} [Add S]
    (noise : Option V) (chol : V → V) (draw : ℕ → V → S)
    (evaluate_cost : Option (S → ℚ)) (dt H : ℚ)
    (states : ℕ → S) (tstamp : ℕ → ℚ) (done : ℕ → Bool)
    (policy : S → A) (zeroU : A) :
    Except PyError (List (RollSample S A) × RollSample S A) :=
  match noise with
  | none => .error .linAlgError
  | some v =>
    let l := chol v
    let xs : ℕ → S := fun i => states i + draw i l
    let hsteps := (⌈H / dt⌉).toNat
    match rollout_loop evaluate_cost xs tstamp done policy 0 hsteps with
    | .error e => .error e
    | .ok (samples, j) =>
      match evaluate_cost with
      | none => .error .attributeError
      | some f => .ok (samples, ⟨tstamp j, xs j, zeroU, f (xs j)⟩)

end Kusanagi

namespace PDDP

/-! ### PDDP.propagate_state (C5)

`pddp.py` lines 37-125.  The `PDDP` constructor sets
`params['angle_dims'] = []`, so the angle reparameterization is the
identity.  Modelled from the spec: `utils.gTrig2` (not under `src/`)
returns, for the empty angle-dimension set, the distribution unchanged
and no cross-covariance map (`Ca is None`), so the `Ca is None` branch of
`propagate_state` is the live one.  The dynamics model
(`predict_symbolic`), the policy evaluation and the cost are abstract
function parameters; `ssgpLike` tells whether the dynamics model is an
`SSGP`/`BNN` (reporting the input-output covariance directly) or reports
it pre-multiplied by the inverse joint covariance.  The joint state-action
index set is `Fin D ⊕ Fin U`. -/

/-- The tuple returned by `propagate_state`:
`[mcost, Scost, mx_next, Sx_next, mu, Su]`. -/
structure PropOut (D U : ℕ) where
  mcost : ℚ
  Scost : ℚ
  mx_next : Fin D → ℚ
  Sx_next : Matrix (Fin D) (Fin D) ℚ
  mu : Fin U → ℚ
  Su : Matrix (Fin U) (Fin U) ℚ

/-- Lines 50-59 of `propagate_state`: the control-signal distribution
`(mu, Su, Cu)` — the fixed nominal open-loop action with zero variance,
or the policy evaluated on the state distribution inflated by half the
model's observation-noise variance on the diagonal. -/
def control_dist (D U : ℕ)
    (policyEval : (Fin D → ℚ) → Matrix (Fin D) (Fin D) ℚ →
      (Fin U → ℚ) × Matrix (Fin U) (Fin U) ℚ × Matrix (Fin D) (Fin U) ℚ)
    (sn2 : Fin D → ℚ) (open_loop : Bool) (u_nominal : Fin U → ℚ)
    (mx : Fin D → ℚ) (Sx : Matrix (Fin D) (Fin D) ℚ) :
    (Fin U → ℚ) × Matrix (Fin U) (Fin U) ℚ × Matrix (Fin D) (Fin U) ℚ :=
  if open_loop then
    (u_nominal, (0 : Matrix (Fin U) (Fin U) ℚ),
      (0 : Matrix (Fin D) (Fin U) ℚ))
  else
    policyEval mx (Sx + Matrix.diagonal (fun i => (1 / 2 : ℚ) * sn2 i))

/-- Lines 61-66 of `propagate_state`: the joint state-action covariance
block matrix `[[Sxa, Sxa·Cu], [(Sxa·Cu)ᵀ, Su]]`. -/
def joint_cov (D U : ℕ) (Sx : Matrix (Fin D) (Fin D) ℚ)
    (su : Matrix (Fin U) (Fin U) ℚ) (cu : Matrix (Fin D) (Fin U) ℚ) :
    Matrix (Fin D ⊕ Fin U) (Fin D ⊕ Fin U) ℚ :=
  Matrix.fromBlocks Sx (Sx * cu) (Sx * cu)ᵀ su

/-- Lines 75-102 of `propagate_state` in the `Ca is None` branch (live
for PDDP, whose angle-dimension set is empty): recover the input-output
covariance (`SSGP`/`BNN` report it directly, all other models report it
pre-multiplied by the inverse joint covariance) and keep its state rows. -/
def state_delta_cross (D U : ℕ) (ssgpLike : Bool)
    (sxu : Matrix (Fin D ⊕ Fin U) (Fin D ⊕ Fin U) ℚ)
    (c_deltax : Matrix (Fin D ⊕ Fin U) (Fin D) ℚ) :
    Matrix (Fin D) (Fin D) ℚ :=
  (if ssgpLike then c_deltax else sxu * c_deltax).submatrix Sum.inl id

/-- The function `PDDP.propagate_state`; here `sn2` is `exp(2 * dynmodel.logsn)`, the
model's observation-noise variance vector; `R` the action-cost weight
matrix (zero when not configured). -/
def propagate_state (D U : ℕ)
    (predict : ((Fin D ⊕ Fin U) → ℚ) →
      Matrix (Fin D ⊕ Fin U) (Fin D ⊕ Fin U) ℚ →
      (Fin D → ℚ) × Matrix (Fin D) (Fin D) ℚ ×
        Matrix (Fin D ⊕ Fin U) (Fin D) ℚ)
    (ssgpLike : Bool)
    (policyEval : (Fin D → ℚ) → Matrix (Fin D) (Fin D) ℚ →
      (Fin U → ℚ) × Matrix (Fin U) (Fin U) ℚ × Matrix (Fin D) (Fin U) ℚ)
    (sn2 : Fin D → ℚ)
    (cost : (Fin D → ℚ) → Matrix (Fin D) (Fin D) ℚ → ℚ × ℚ)
    (R : Matrix (Fin U) (Fin U) ℚ)
    (open_loop : Bool) (u_nominal : Fin U → ℚ)
    (mx : Fin D → ℚ) (Sx : Matrix (Fin D) (Fin D) ℚ) : PropOut D U :=
  let uDist := control_dist D U policyEval sn2 open_loop u_nominal mx Sx
  let mu := uDist.1
  let su := uDist.2.1
  let cu := uDist.2.2
  let mxu : (Fin D ⊕ Fin U) → ℚ := Sum.elim mx mu
  let sxu := joint_cov D U Sx su cu
  let pr := predict mxu sxu
  let m_deltax := pr.1
  let s_deltax := pr.2.1
  let c_deltax := pr.2.2
  let mx_next := mx + m_deltax
  let sx_deltax := state_delta_cross D U ssgpLike sxu c_deltax
  let sx_next := Sx + s_deltax + sx_deltax + sx_deltaxᵀ
  let c := cost mx Sx
  let mcost := c.1 + Matrix.dotProduct mu (R.mulVec mu)
  ⟨mcost, c.2, mx_next, sx_next, mu, su⟩

/-! ### PDDP.backward_pass (C2, C6)

`pddp.py` lines 127-165.  `n` is the dimension of the flattened state
encoding `z`, `m` the action dimension.  The cost gradients/Hessians
(`lx`, `lu`, `lxx`, `lux`, `luu`) and the Jacobians `Fx`, `Fu` of
`z_next` with respect to `z_prev` and `u` are inputs computed by theano;
`solve` is `theano.tensor.slinalg.solve`, a black-box linear solver with
`solve A b = A⁻¹ b` for nonsingular `A`. -/

/-- The value-function outputs of one `backward_pass` step:
`[V, Vx, Vxx, VxdotFx, VxdotFu]`. -/
structure BackOut (n m : ℕ) where
  V : ℚ
  Vx : Fin n → ℚ
  Vxx : Matrix (Fin n) (Fin n) ℚ
  VxdotFx : Fin n → ℚ
  VxdotFu : Fin m → ℚ

/-- One step of `PDDP.backward_pass` in the direct-Jacobian mode
(`self.lop = False`, lines 143-165).  theano/numpy broadcasting applies
in `Vx = Qx + Qu.dot(L)` (a scalar added to every component) and in
`Vxx = Qxx + Qux.T.dot(L)` (a length-`n` vector added to every row). -/
def backward_pass (n m : ℕ)
    (solve : Matrix (Fin m) (Fin m) ℚ → (Fin m → ℚ) → (Fin m → ℚ))
    (lx : Fin n → ℚ) (lu : Fin m → ℚ)
    (lxx : Matrix (Fin n) (Fin n) ℚ) (lux : Matrix (Fin m) (Fin n) ℚ)
    (luu : Matrix (Fin m) (Fin m) ℚ)
    (Fx : Matrix (Fin n) (Fin n) ℚ) (Fu : Matrix (Fin n) (Fin m) ℚ)
    (V : ℚ) (Vx : Fin n → ℚ) (Vxx : Matrix (Fin n) (Fin n) ℚ) :
    BackOut n m :=
  let vxdotFx := Matrix.vecMul Vx Fx
  let vxdotFu := Matrix.vecMul Vx Fu
  let fxVxxFx := Fxᵀ * Vxx * Fx
  let fuVxxFx := Fuᵀ * Vxx * Fx
  let fuVxxFu := Fuᵀ * Vxx * Fu
  let qx := lx + vxdotFx
  let qu := lu + vxdotFu
  let qxx := lxx + fxVxxFx
  let qux := lux + fuVxxFx
  let quu := luu + fuVxxFu + (1 / 100 : ℚ) • (1 : Matrix (Fin m) (Fin m) ℚ)
  let i := -(solve quu qu)
  let feedback := -(solve quu qu)
  let vNew := V + Matrix.dotProduct qu i
  let vxNew := fun a => qx a + Matrix.dotProduct qu feedback
  let vxxNew := qxx + Matrix.of fun _ b => Matrix.mulVec quxᵀ feedback b
  ⟨vNew, vxNew, vxxNew, vxdotFx, vxdotFu⟩

/-- The `Vxx`-dependent product of the Lop branch (`self.lop = True`,
lines 137-140) as the surrounding code intends it: `cholVxx` is
`tt.slinalg.cholesky(Vxx)` and `theano.map` of `theano.tensor.Lop` over
the rows of `cholVxx` stacks the rows `cholVxx[i] · Fx`, i.e. forms
`cholVxx * Fx`.  (Line 138 as written is a Python syntax error — an
unbalanced parenthesis and a positional argument after a keyword
argument — so this branch cannot run at all.) -/
def lopVxxFx (n : ℕ) (cholVxx Fx : Matrix (Fin n) (Fin n) ℚ) :
    Matrix (Fin n) (Fin n) ℚ :=
  cholVxx * Fx

/-- Line 140 of the Lop branch: `FxVxxFx = VxxFx.T.dot(VxxFx)`. -/
def lopFxVxxFx (n : ℕ) (cholVxx Fx : Matrix (Fin n) (Fin n) ℚ) :
    Matrix (Fin n) (Fin n) ℚ :=
  (lopVxxFx n cholVxx Fx)ᵀ * lopVxxFx n cholVxx Fx

/-- Line 146 of the direct branch: `FxVxxFx = Fx.T.dot(Vxx).dot(Fx)`. -/
def directFxVxxFx (n : ℕ) (Vxx Fx : Matrix (Fin n) (Fin n) ℚ) :
    Matrix (Fin n) (Fin n) ℚ :=
  Fxᵀ * Vxx * Fx

end PDDP

/-! ## Theorems settling the claims -/

open Kusanagi PDDP

/-- Helper: when every method raises `ValueError`, the fallback loop on a
nonempty method list ends normally with the best-known parameters
installed — no exception escapes. -/
theorem try_min_methods_allFail {P : Type}
    (attempt : DetMethod → P → MethodOutcome P) (best : P)
    (h : ∀ s p, attempt s p = .valueError) :
    ∀ l, l ≠ [] → ∀ p, try_min_methods attempt best p l = .finished best none := by
  intro l
  induction l with
  | nil => intro hne; exact absurd rfl hne
  | cons m rest ih =>
    intro _ p
    have hs := h m p
    cases rest with
    | nil => simp [try_min_methods, hs]
    | cons a as =>
      simp only [try_min_methods, hs]
      exact ih (by simp) best

/-- Claim C1 (counterexample): the claim says a numerical failure is
fatal (an error is raised) when every method in the fallback list fails.
With every `scipy.optimize.minimize` call raising `ValueError`, the
deterministic branch of `train_policy` finishes normally (best-known
parameters `7` installed, no method succeeded) — no error is raised. -/
theorem C1_all_fail_not_fatal :
    train_policy_det (fun _ _ => MethodOutcome.valueError) (7 : ℕ) 3
      DetMethod.cg = .finished 7 none := by
  rfl

/-- Claim C1 (amended): for every configured deterministic method, the
fallback list is the configured method followed by the remaining methods
of `L-BFGS-B, TNC, BFGS, SLSQP, CG` in that order; the loop stops at the
first success; on a numerical failure it restores the best-known
parameters and retries with the rest of the list; and if every method
fails numerically the training finishes with the best-known parameters
installed and no error is raised. -/
theorem C1_fallback_ordering_and_recovery {P : Type}
    (attempt : DetMethod → P → MethodOutcome P) (best p0 : P)
    (m : DetMethod) (hm : m ∈ DETERMINISTIC_MIN_METHODS) :
    build_min_methods m
        = m :: DETERMINISTIC_MIN_METHODS.filter (fun d => d ≠ m)
    ∧ (∀ r, attempt m p0 = .success r →
        train_policy_det attempt best p0 m = .finished r (some m))
    ∧ (attempt m p0 = .valueError →
        train_policy_det attempt best p0 m =
          try_min_methods attempt best best
            (DETERMINISTIC_MIN_METHODS.filter (fun d => d ≠ m)))
    ∧ ((∀ s p, attempt s p = .valueError) →
        train_policy_det attempt best p0 m = .finished best none) := by
  have horder : build_min_methods m
      = m :: DETERMINISTIC_MIN_METHODS.filter (fun d => d ≠ m) := by
    fin_cases hm <;> rfl
  refine ⟨horder, ?_, ?_, ?_⟩
  · intro r hr
    unfold train_policy_det
    rw [horder]
    simp [try_min_methods, hr]
  · intro hr
    unfold train_policy_det
    rw [horder]
    simp [try_min_methods, hr]
  · intro hall
    unfold train_policy_det
    rw [horder]
    exact try_min_methods_allFail attempt best hall _ (by simp) p0

/-- Witness for C1: instantiates the amended theorem at the configured
method `TNC` with every method failing numerically. -/
theorem C1_fallback_ordering_and_recovery_witness :
    train_policy_det (fun _ _ => MethodOutcome.valueError) (7 : ℕ) 3
      DetMethod.tnc = .finished 7 none :=
  (C1_fallback_ordering_and_recovery (fun _ _ => MethodOutcome.valueError)
    (7 : ℕ) 3 DetMethod.tnc (by decide)).2.2.2 (fun _ _ => rfl)

/-- Claim C7 (counterexample): starting from a learner state where
`len(policy_history)` equals the iteration counter (both `0`), a single
`save` with no intervening `train_policy` appends an entry and breaks the
equality — so an operation other than a completed training iteration does
change it. -/
theorem C7_save_alone_breaks_equality :
    (⟨0, 0, 0, 5, [], false⟩ : LearnerModel ℕ).policy_history.length
        = (⟨0, 0, 0, 5, [], false⟩ : LearnerModel ℕ).learning_iteration
    ∧ (save (⟨0, 0, 0, 5, [], false⟩ : LearnerModel ℕ)).policy_history.length
        ≠ (save (⟨0, 0, 0, 5, [], false⟩ : LearnerModel ℕ)).learning_iteration := by
  decide

/-- Claim C7 (amended): if `len(policy_history)` equals the number of
completed training iterations, then completing `train_policy` followed by
exactly one `save` preserves that equality, and `apply_controller`
preserves it; but `save` appends unconditionally, so a `save` that is not
paired with a preceding `train_policy` leaves the history one entry
longer than the iteration counter. -/
theorem C7_history_matches_iterations {P : Type} (s : LearnerModel P) (p : P)
    (h : s.policy_history.length = s.learning_iteration) :
    (save (train_policy_effect p s)).policy_history.length
        = (save (train_policy_effect p s)).learning_iteration
    ∧ (apply_controller_effect s).policy_history.length
        = (apply_controller_effect s).learning_iteration
    ∧ (save s).policy_history.length = s.learning_iteration + 1 := by
  refine ⟨?_, ?_, ?_⟩ <;>
    simp [save, train_policy_effect, apply_controller_effect, h]

/-- Witness for C7: instantiates the amended theorem at a concrete
learner state with an empty history and iteration counter `0`. -/
theorem C7_history_matches_iterations_witness :
    (save (train_policy_effect 4 (⟨0, 0, 0, 5, [], false⟩ : LearnerModel ℕ))).policy_history.length
        = (save (train_policy_effect 4 (⟨0, 0, 0, 5, [], false⟩ : LearnerModel ℕ))).learning_iteration
    ∧ (apply_controller_effect (⟨0, 0, 0, 5, [], false⟩ : LearnerModel ℕ)).policy_history.length
        = (apply_controller_effect (⟨0, 0, 0, 5, [], false⟩ : LearnerModel ℕ)).learning_iteration
    ∧ (save (⟨0, 0, 0, 5, [], false⟩ : LearnerModel ℕ)).policy_history.length
        = (⟨0, 0, 0, 5, [], false⟩ : LearnerModel ℕ).learning_iteration + 1 :=
  C7_history_matches_iterations (⟨0, 0, 0, 5, [], false⟩ : LearnerModel ℕ) 4 rfl

/-- Claim C8: an iteration `k` is recorded in a `policy_history` of
length `len` only when `k < len`; when the requested resume iteration is
not recorded (`len ≤ k`) and the buffer does have a `policy_history`, the
learner takes the warn-and-wait branch — it blocks on operator
confirmation and then continues from the latest loaded iteration — and in
particular never reaches the truncation branch. -/
theorem C8_missing_iteration_prompts (hasHistory : Bool) (len k : ℕ)
    (hhist : hasHistory = true) (hk : len ≤ k) :
    resume_check hasHistory len k = .promptContinueLatest
    ∧ resume_check hasHistory len k ≠ .truncate := by
  subst hhist
  have hle : len ≤ k + 1 := le_trans hk (Nat.le_succ k)
  constructor
  · simp [resume_check, hle]
  · simp [resume_check, hle]

/-- Witness for C8: requesting iteration `5` against a `policy_history`
of length `3`. -/
theorem C8_missing_iteration_prompts_witness :
    resume_check true 3 5 = .promptContinueLatest
    ∧ resume_check true 3 5 ≠ .truncate :=
  C8_missing_iteration_prompts true 3 5 rfl (by decide)

/-- Helper: when the first while loop of the resume branch stops at index
`i`, the label `k` occurs in the list. -/
theorem findEqIdx_mem {k : ℕ} :
    ∀ {l : List ℕ} {i : ℕ}, findEqIdx k l = some i → k ∈ l := by
  intro l
  induction l with
  | nil => intro i h; simp [findEqIdx] at h
  | cons a t ih =>
    intro i h
    by_cases hak : a = k
    · subst hak; exact List.mem_cons_self a t
    · simp only [findEqIdx, if_neg hak, Option.map_eq_some'] at h
      obtain ⟨j, hj, _⟩ := h
      exact List.mem_cons_of_mem a (ih hj)

/-- Helper: in a nondecreasing label list, every label strictly before the
index where the first while loop stops is at most `k`. -/
theorem findEqIdx_take_le {k : ℕ} :
    ∀ {l : List ℕ}, List.Sorted (· ≤ ·) l →
      ∀ {i : ℕ}, findEqIdx k l = some i → ∀ x ∈ l.take i, x ≤ k := by
  intro l
  induction l with
  | nil => intro _ i _ x hx; simp at hx
  | cons a t ih =>
    intro hs i h x hx
    obtain ⟨hab, hst⟩ := List.sorted_cons.mp hs
    by_cases hak : a = k
    · simp only [findEqIdx, if_pos hak] at h
      obtain rfl : (0 : ℕ) = i := Option.some_injective _ h
      simp at hx
    · simp only [findEqIdx, if_neg hak, Option.map_eq_some'] at h
      obtain ⟨j, hj, rfl⟩ := h
      rcases List.mem_cons.mp (by simpa [List.take_cons] using hx) with rfl | hxt
      · exact hab k (findEqIdx_mem hj)
      · exact ih hst hj x hxt

/-- Helper: every label skipped by the second while loop equals `k`. -/
theorem skipEqCount_take_eq {k : ℕ} :
    ∀ {l : List ℕ} {m : ℕ}, skipEqCount k l = some m → ∀ x ∈ l.take m, x = k := by
  intro l
  induction l with
  | nil => intro m h; simp [skipEqCount] at h
  | cons a t ih =>
    intro m h x hx
    by_cases hak : a = k
    · simp only [skipEqCount, if_pos hak, Option.map_eq_some'] at h
      obtain ⟨j, hj, rfl⟩ := h
      rcases List.mem_cons.mp (by simpa [List.take_cons] using hx) with rfl | hxt
      · exact hak
      · exact ih hj x hxt
    · simp only [skipEqCount, if_neg hak] at h
      obtain rfl : (0 : ℕ) = m := Option.some_injective _ h
      simp at hx

/-- Helper: every label retained by the truncation boundary `entry_num`
is at most `k`, provided the episode labels are nondecreasing (as they
are in any buffer built by the append-only collection loop). -/
theorem entry_num_take_le {labels : List ℕ} {k n : ℕ}
    (hs : List.Sorted (· ≤ ·) labels) (hn : entry_num labels k = some n) :
    ∀ x ∈ labels.take n, x ≤ k := by
  unfold entry_num at hn
  cases hf : findEqIdx k labels with
  | none => rw [hf] at hn; cases hn
  | some i =>
    rw [hf] at hn
    have hn2 : (skipEqCount k (labels.drop i)).map (fun x => i + x) = some n := hn
    cases hsk : skipEqCount k (labels.drop i) with
    | none => rw [hsk] at hn2; cases hn2
    | some m =>
      rw [hsk] at hn2
      obtain rfl : i + m = n := Option.some_injective _ hn2
      intro x hx
      rw [List.take_add] at hx
      rcases List.mem_append.mp hx with hx1 | hx2
      · exact findEqIdx_take_le hs hf x hx1
      · exact le_of_eq (skipEqCount_take_eq hsk x hx2)

/-- Claim C3 (counterexample): resuming from the existing iteration
`k = 0` (labels `[0,0,1]`, `policy_history` of length `2`, so the resume
guard `k+1 < len` passes) truncates the arrays at the block boundary but
leaves `policy_history` untouched at `2` entries — not the `k = 0`
entries the claim requires, because the `if learn_from_iteration is not 0`
guard skips both the parameter restore and the history truncation. -/
theorem C3_zero_iteration_keeps_history :
    (resume_from_iteration
        (⟨[100, 101, 102], [1, 2, 3], [3, 4, 5], [5, 6, 7], [0, 0, 1],
          [10, 20], -1⟩ : ExperienceDataset ℕ ℕ ℕ ℕ ℕ) 0 30).map
        (fun r => r.1.policy_history.length) = some 2
    ∧ (resume_from_iteration
        (⟨[100, 101, 102], [1, 2, 3], [3, 4, 5], [5, 6, 7], [0, 0, 1],
          [10, 20], -1⟩ : ExperienceDataset ℕ ℕ ℕ ℕ ℕ) 0 30).map
        (fun r => r.1.policy_history.length) ≠ some 0 := by
  decide

/-- Claim C3 (amended): for a buffer with nondecreasing episode labels
whose truncation scan stops at boundary `n` and which passes the resume
guard `k + 1 < len(policy_history)`, resuming from iteration `k`
truncates `time_stamps`, `states`, `actions` and `immediate_cost` at `n`,
every retained label is `≤ k`, and — when `k > 0` — the policy parameters
are restored from `policy_history[k-1]` and `policy_history` is truncated
to exactly `k` entries; when `k = 0` the parameters and the history are
left unchanged. -/
theorem C3_resume_truncates_arrays {T S A C P : Type}
    (exp : ExperienceDataset T S A C P) (k n : ℕ) (pol : P)
    (hs : List.Sorted (· ≤ ·) exp.episode_labels)
    (hn : entry_num exp.episode_labels k = some n)
    (hk : k + 1 < exp.policy_history.length) :
    (resume_from_iteration exp k pol).map
        (fun r => (r.1.time_stamps, r.1.states, r.1.actions,
                   r.1.immediate_cost, r.1.policy_history, r.2))
      = some (exp.time_stamps.take n, exp.states.take n, exp.actions.take n,
              exp.immediate_cost.take n,
              if k = 0 then exp.policy_history else exp.policy_history.take k,
              if k = 0 then pol else (exp.policy_history.get? (k - 1)).getD pol)
    ∧ ((exp.episode_labels.take n).all fun x => decide (x ≤ k)) = true
    ∧ (resume_from_iteration exp k pol).map
        (fun r => r.1.policy_history.length)
      = some (if k = 0 then exp.policy_history.length else k) := by
  have hbound : ((exp.episode_labels.take n).all fun x => decide (x ≤ k)) = true := by
    rw [List.all_eq_true]
    intro x hx
    simp only [decide_eq_true_eq]
    exact entry_num_take_le hs hn x hx
  by_cases hk0 : k = 0
  · subst hk0
    refine ⟨?_, hbound, ?_⟩
    · unfold resume_from_iteration
      rw [hn]
      simp
    · unfold resume_from_iteration
      rw [hn]
      simp
  · have hklen : k - 1 < exp.policy_history.length := by omega
    obtain ⟨p, hp⟩ : ∃ p, exp.policy_history[k - 1]? = some p := by
      rw [List.getElem?_eq_getElem hklen]
      exact ⟨_, rfl⟩
    have hkle : k ≤ exp.policy_history.length := by omega
    refine ⟨?_, hbound, ?_⟩
    · unfold resume_from_iteration
      rw [hn]
      simp [hk0, hp]
    · unfold resume_from_iteration
      rw [hn]
      simp [hk0, hp, List.length_take, Nat.min_eq_left hkle]

/-- Witness for C3: a buffer with labels `[0, 1, 2]` and three recorded
policy snapshots, resumed from iteration `1` (scan boundary `n = 2`). -/
theorem C3_resume_truncates_arrays_witness :
    (resume_from_iteration
        (⟨[100, 101, 102], [1, 2, 3], [3, 4, 5], [5, 6, 7], [0, 1, 2],
          [10, 20, 30], -1⟩ : ExperienceDataset ℕ ℕ ℕ ℕ ℕ) 1 99).map
        (fun r => (r.1.time_stamps, r.1.states, r.1.actions,
                   r.1.immediate_cost, r.1.policy_history, r.2))
      = some ([100, 101], [1, 2], [3, 4], [5, 6], [10], 10)
    ∧ ((([0, 1, 2] : List ℕ).take 2).all fun x => decide (x ≤ 1)) = true
    ∧ (resume_from_iteration
        (⟨[100, 101, 102], [1, 2, 3], [3, 4, 5], [5, 6, 7], [0, 1, 2],
          [10, 20, 30], -1⟩ : ExperienceDataset ℕ ℕ ℕ ℕ ℕ) 1 99).map
        (fun r => r.1.policy_history.length) = some 1 :=
  C3_resume_truncates_arrays
    (⟨[100, 101, 102], [1, 2, 3], [3, 4, 5], [5, 6, 7], [0, 1, 2],
      [10, 20, 30], -1⟩ : ExperienceDataset ℕ ℕ ℕ ℕ ℕ) 1 2 99
    (by decide) (by decide) (by decide)

/-- Helper: with the cost evaluator present and a plant that never
reports completion, the rollout loop records exactly one sample per
iteration and fetches one state per iteration. -/
theorem rollout_loop_never_done {S A : Type} (f : S → ℚ)
    (xs : ℕ → S) (ts : ℕ → ℚ) (done : ℕ → Bool) (policy : S → A)
    (hdone : ∀ i, done i = false) :
    ∀ n i, ∃ l, rollout_loop (some f) xs ts done policy i n = .ok (l, i + n)
      ∧ l.length = n := by
  intro n
  induction n with
  | zero => intro i; exact ⟨[], by simp [rollout_loop], rfl⟩
  | succ j ih =>
    intro i
    obtain ⟨l, hl, hlen⟩ := ih (i + 1)
    refine ⟨⟨ts i, xs i, policy (xs i), f (xs i)⟩ :: l, ?_, by simp [hlen]⟩
    have harith : i + 1 + j = i + (j + 1) := by omega
    simp [rollout_loop, hdone (i + 1), hl, harith]

/-- Claim C4: for a plant with `dt = 0.1` (and a provided noise
covariance and compiled cost evaluator, without which the rollout cannot
start) that never reports completion, `apply_controller(H = 1.0)` records
exactly `ceil(1.0/0.1) = 10` samples in the loop plus one terminal sample
whose action is the zero vector. -/
theorem C4_ten_samples_plus_zero_terminal {S A V : Type} [Add S]
    (v : V) (chol : V → V) (draw : ℕ → V → S) (f : S → ℚ)
    (states : ℕ → S) (ts : ℕ → ℚ) (done : ℕ → Bool)
    (policy : S → A) (zeroU : A)
    (hdone : ∀ i, done i = false) :
    (apply_controller (some v) chol draw (some f) (1 / 10 : ℚ) 1
        states ts done policy zeroU).map (fun r => (r.1.length, r.2.u))
      = .ok (10, zeroU) := by
  have hceil : (⌈(1 : ℚ) / (1 / 10 : ℚ)⌉) = 10 := by norm_num
  have hsteps : (⌈(1 : ℚ) / (1 / 10 : ℚ)⌉).toNat = 10 := by rw [hceil]; rfl
  obtain ⟨l, hl, hlen⟩ := rollout_loop_never_done f
    (fun i => states i + draw i (chol v)) ts done policy hdone 10 0
  unfold apply_controller
  simp [hsteps, hl, hlen, Except.map]

/-- Witness for C4: a one-dimensional plant over `ℚ` with unit noise
covariance, zero cost, identity policy and a plant that never finishes. -/
theorem C4_ten_samples_plus_zero_terminal_witness :
    (apply_controller (some (1 : ℚ)) id (fun _ _ => (0 : ℚ))
        (some fun _ => (0 : ℚ)) (1 / 10 : ℚ) 1 (fun _ => (0 : ℚ))
        (fun i => (i : ℚ)) (fun _ => false) (fun x : ℚ => x)
        (0 : ℚ)).map (fun r => (r.1.length, r.2.u))
      = .ok (10, 0) :=
  C4_ten_samples_plus_zero_terminal (1 : ℚ) id (fun _ _ => (0 : ℚ))
    (fun _ => (0 : ℚ)) (fun _ => (0 : ℚ)) (fun i => (i : ℚ))
    (fun _ => false) (fun x : ℚ => x) (0 : ℚ) (fun _ => rfl)

/-- Claim C9 (code evaluated at the failing input): with
`plant.noise = None`, `apply_controller` executes
`np.linalg.cholesky(self.plant.noise)` *before* the
`if self.plant.noise is not None` check (line 182 precedes line 183), so
the call raises immediately and no rollout happens — contradicting the
claim that no Cholesky factorization is attempted and the rollout
completes normally. -/
theorem C9_cholesky_attempted_on_none_noise :
    apply_controller (none : Option ℚ) id (fun _ _ => (0 : ℚ))
        (some fun _ => (0 : ℚ)) (1 / 10 : ℚ) 1 (fun _ => (0 : ℚ))
        (fun i => (i : ℚ)) (fun _ => false) (fun x : ℚ => x) (0 : ℚ)
      = .error .linAlgError := by
  rfl

/-- Claim C10 (code evaluated at the failing input): a learner built with
`cost_func = None` gets `evaluate_cost` from `init_cost`, which assigns
the attribute only in the cost-present branch; the first loop iteration
of `apply_controller` then reads `self.evaluate_cost` and raises
`AttributeError` — the zero-cost `append` branch is unreachable,
contradicting the claim that every sample is appended with cost `0`. -/
theorem C10_no_cost_raises_attribute_error :
    apply_controller (some (1 : ℚ)) id (fun _ _ => (0 : ℚ))
        (init_cost (none : Option (ℚ → ℚ × ℚ)) (fun c x => (c x).1))
        (1 / 10 : ℚ) 1 (fun _ => (0 : ℚ)) (fun i => (i : ℚ))
        (fun _ => false) (fun x : ℚ => x) (0 : ℚ)
      = .error .attributeError := by
  have hceil : (⌈(1 : ℚ) / (1 / 10 : ℚ)⌉) = 10 := by norm_num
  have hsteps : (⌈(1 : ℚ) / (1 / 10 : ℚ)⌉).toNat = 10 := by rw [hceil]; rfl
  unfold apply_controller
  simp [hsteps, init_cost, rollout_loop]

/-- Claim C2: one step of `backward_pass` (direct mode) computes exactly
`Qx = lx + Vx·Fx`, `Qu = lu + Vx·Fu`, `Qxx = lxx + Fxᵀ·Vxx·Fx`,
`Qux = lux + Fuᵀ·Vxx·Fx`, `Quu = luu + Fuᵀ·Vxx·Fu + 0.01·I`, both
control-law updates from the one solve `-(solve Quu Qu)` — the identical
term appears in the `V` update (feedforward `I`) and in the `Vx`/`Vxx`
updates (feedback `L`) — and propagates `V + Qu·I`, `Qx + Qu·L`
(scalar broadcast), `Qxx + Quxᵀ·L` (row broadcast). -/
theorem C2_backward_pass_formulas (n m : ℕ)
    (solve : Matrix (Fin m) (Fin m) ℚ → (Fin m → ℚ) → (Fin m → ℚ))
    (lx : Fin n → ℚ) (lu : Fin m → ℚ)
    (lxx : Matrix (Fin n) (Fin n) ℚ) (lux : Matrix (Fin m) (Fin n) ℚ)
    (luu : Matrix (Fin m) (Fin m) ℚ)
    (Fx : Matrix (Fin n) (Fin n) ℚ) (Fu : Matrix (Fin n) (Fin m) ℚ)
    (V : ℚ) (Vx : Fin n → ℚ) (Vxx : Matrix (Fin n) (Fin n) ℚ) :
    backward_pass n m solve lx lu lxx lux luu Fx Fu V Vx Vxx =
      { V := V + Matrix.dotProduct (lu + Matrix.vecMul Vx Fu)
            (-(solve (luu + Fuᵀ * Vxx * Fu
                  + (1 / 100 : ℚ) • (1 : Matrix (Fin m) (Fin m) ℚ))
                (lu + Matrix.vecMul Vx Fu)))
        Vx := fun a => (lx + Matrix.vecMul Vx Fx) a
            + Matrix.dotProduct (lu + Matrix.vecMul Vx Fu)
              (-(solve (luu + Fuᵀ * Vxx * Fu
                    + (1 / 100 : ℚ) • (1 : Matrix (Fin m) (Fin m) ℚ))
                  (lu + Matrix.vecMul Vx Fu)))
        Vxx := (lxx + Fxᵀ * Vxx * Fx)
            + Matrix.of fun _ b => Matrix.mulVec (lux + Fuᵀ * Vxx * Fx)ᵀ
                (-(solve (luu + Fuᵀ * Vxx * Fu
                      + (1 / 100 : ℚ) • (1 : Matrix (Fin m) (Fin m) ℚ))
                    (lu + Matrix.vecMul Vx Fu))) b
        VxdotFx := Matrix.vecMul Vx Fx
        VxdotFu := Matrix.vecMul Vx Fu } :=
  rfl

/-- Helper: a symmetric matrix plus a symmetric matrix plus any matrix
and its transpose is symmetric. -/
theorem sym_sum_transpose {D : ℕ} (X Sd A : Matrix (Fin D) (Fin D) ℚ)
    (hX : Xᵀ = X) (hSd : Sdᵀ = Sd) :
    (X + Sd + A + Aᵀ)ᵀ = X + Sd + A + Aᵀ := by
  rw [Matrix.transpose_add, Matrix.transpose_add, Matrix.transpose_add,
    Matrix.transpose_transpose, hX, hSd]
  exact add_right_comm _ _ _

/-- Claim C5: with `uDist`, `sxu`, `pr`, `sxD` the control distribution,
joint covariance, model prediction and state-rows cross-covariance that
`propagate_state` constructs, and with the input covariance `Sx` and the
model-reported delta covariance `pr.2.1` symmetric, the next mean is
`mx + m_deltax`, the next covariance is
`Sx + S_deltax + Sx_deltax + Sx_deltaxᵀ`, and that next covariance is
exactly symmetric. -/
theorem C5_propagate_state_symmetric (D U : ℕ)
    (predict : ((Fin D ⊕ Fin U) → ℚ) →
      Matrix (Fin D ⊕ Fin U) (Fin D ⊕ Fin U) ℚ →
      (Fin D → ℚ) × Matrix (Fin D) (Fin D) ℚ ×
        Matrix (Fin D ⊕ Fin U) (Fin D) ℚ)
    (ssgpLike : Bool)
    (policyEval : (Fin D → ℚ) → Matrix (Fin D) (Fin D) ℚ →
      (Fin U → ℚ) × Matrix (Fin U) (Fin U) ℚ × Matrix (Fin D) (Fin U) ℚ)
    (sn2 : Fin D → ℚ)
    (cost : (Fin D → ℚ) → Matrix (Fin D) (Fin D) ℚ → ℚ × ℚ)
    (R : Matrix (Fin U) (Fin U) ℚ)
    (open_loop : Bool) (u_nominal : Fin U → ℚ)
    (mx : Fin D → ℚ) (Sx : Matrix (Fin D) (Fin D) ℚ)
    (uDist : (Fin U → ℚ) × Matrix (Fin U) (Fin U) ℚ ×
      Matrix (Fin D) (Fin U) ℚ)
    (sxu : Matrix (Fin D ⊕ Fin U) (Fin D ⊕ Fin U) ℚ)
    (pr : (Fin D → ℚ) × Matrix (Fin D) (Fin D) ℚ ×
      Matrix (Fin D ⊕ Fin U) (Fin D) ℚ)
    (sxD : Matrix (Fin D) (Fin D) ℚ)
    (hu : uDist = control_dist D U policyEval sn2 open_loop u_nominal mx Sx)
    (hsxu : sxu = joint_cov D U Sx uDist.2.1 uDist.2.2)
    (hpr : pr = predict (Sum.elim mx uDist.1) sxu)
    (hsxD : sxD = state_delta_cross D U ssgpLike sxu pr.2.2)
    (hSx : Sxᵀ = Sx) (hSd : (pr.2.1)ᵀ = pr.2.1) :
    (propagate_state D U predict ssgpLike policyEval sn2 cost R
        open_loop u_nominal mx Sx).mx_next = mx + pr.1
    ∧ (propagate_state D U predict ssgpLike policyEval sn2 cost R
        open_loop u_nominal mx Sx).Sx_next = Sx + pr.2.1 + sxD + sxDᵀ
    ∧ ((propagate_state D U predict ssgpLike policyEval sn2 cost R
        open_loop u_nominal mx Sx).Sx_next)ᵀ
      = (propagate_state D U predict ssgpLike policyEval sn2 cost R
        open_loop u_nominal mx Sx).Sx_next := by
  subst hsxD
  subst hpr
  subst hsxu
  subst hu
  exact ⟨rfl, rfl, sym_sum_transpose Sx _ _ hSx hSd⟩

/-- Witness for C5: one state and one action dimension, the zero input
distribution, a dynamics model and policy that report zeros. -/
theorem C5_propagate_state_symmetric_witness :
    (propagate_state 1 1 (fun _ _ => (0, 0, 0)) true (fun _ _ => (0, 0, 0))
        0 (fun _ _ => (0, 0)) 0 false 0 0 0).mx_next
      = (0 : Fin 1 → ℚ) + 0
    ∧ (propagate_state 1 1 (fun _ _ => (0, 0, 0)) true (fun _ _ => (0, 0, 0))
        0 (fun _ _ => (0, 0)) 0 false 0 0 0).Sx_next
      = (0 : Matrix (Fin 1) (Fin 1) ℚ) + 0 + 0
        + (0 : Matrix (Fin 1) (Fin 1) ℚ)ᵀ
    ∧ ((propagate_state 1 1 (fun _ _ => (0, 0, 0)) true (fun _ _ => (0, 0, 0))
        0 (fun _ _ => (0, 0)) 0 false 0 0 0).Sx_next)ᵀ
      = (propagate_state 1 1 (fun _ _ => (0, 0, 0)) true (fun _ _ => (0, 0, 0))
        0 (fun _ _ => (0, 0)) 0 false 0 0 0).Sx_next :=
  C5_propagate_state_symmetric 1 1 (fun _ _ => (0, 0, 0)) true
    (fun _ _ => (0, 0, 0)) 0 (fun _ _ => (0, 0)) 0 false 0 0 0
    (0, 0, 0) (joint_cov 1 1 0 0 0) (0, 0, 0) 0
    rfl rfl rfl rfl (by simp) (by simp)

/-- Claim C6 (code evaluated at the failing input): the Lop branch of
`backward_pass`, taken as its surrounding lines intend (line 138 itself
cannot even parse), forms `FxVxxFx` as `(cholVxx·Fx)ᵀ·(cholVxx·Fx)
= Fxᵀ·(LᵀL)·Fx`, while the direct branch forms `Fxᵀ·Vxx·Fx` with
`Vxx = L·Lᵀ`.  At `L = [[1,0],[1,1]]` and `Fx = I` the two modes give
`[[2,1],[1,1]]` and `[[1,1],[1,2]]` — the modes do not agree. -/
theorem C6_lop_branch_diverges :
    lopFxVxxFx 2 !![1, 0; 1, 1] 1
      ≠ directFxVxxFx 2
          (!![1, 0; 1, 1] * (!![1, 0; 1, 1] : Matrix (Fin 2) (Fin 2) ℚ)ᵀ) 1 := by
  intro h
  have h00 := congrFun (congrFun h 0) 0
  simp only [lopFxVxxFx, lopVxxFx, directFxVxxFx, Matrix.mul_one, Matrix.one_mul,
    Matrix.transpose_one, Matrix.mul_apply, Matrix.transpose_apply,
    Fin.sum_univ_two] at h00
  norm_num at h00
